import Mathlib

/-!
Shallow embedding of the voice-call application (`src/src/App.tsx`) of the
repository `Call`: the call state machine, its signaling messages, and the
handlers `handleIncomingSignal`, `startCall`, `acceptCall`, `rejectCall`,
`endCall`, `toggleMute`, `startCallTimer` and the peer-connection
`onconnectionstatechange` callback.

Modelling conventions:
- `RTCSessionDescriptionInit` and `RTCIceCandidateInit` payloads are opaque and
  modelled as `Nat` identifiers.
- `MediaStream` is a list of audio tracks, each with an `enabled` and a
  `stopped` flag; `getUserMedia` outcomes are supplied as environment
  parameters (`none` models the promise rejecting).
- React `useState` values and `useRef` cells are collected into one record
  `AppState`; a handler is a function `AppState → AppState × List CallData`,
  the second component being the signaling messages published via
  `sendSignal` (their `timestamp`, diagnostic only in the source, is
  modelled as 0).
- `setInterval` / `clearInterval` are modelled by a counter `nextTimerId`
  handing out interval ids, a list `liveTimers` of intervals currently
  running, and the ref `callTimerRef`; a one-second tick increments
  `callDuration` once per live interval.
- JavaScript `async` suspension is modelled by splitting `startCall` and
  `acceptCall` into the synchronous prefix and a resume function taking the
  closure-captured values (`userRole`, `incomingCall`) as parameters, so that
  other events may be interleaved between the two, exactly as the event loop
  allows.
- React closure capture is modelled explicitly: refs and state setters are
  stable and act on the current state, but a `useState` const read inside a
  callback is the value of the render that created the callback.  In
  particular `endCallWith` takes the `userRole` and `callState` its invoking
  closure captured: the broadcast subscription (re-created only when
  `userRole` changes) holds the role-selection render's `callState = idle`,
  and the peer-connection handler holds the pre-call render's value, so only
  the End/Cancel buttons ever see a `callState` that satisfies the send
  guard.
-/

namespace CallApp

/-- Model of `type UserRole = 'moo' | 'boo' | null` — the non-null part. -/
inductive Role where
  | moo
  | boo
deriving DecidableEq

/-- The counterpart pairing `userRole === 'moo' ? 'boo' : 'moo'`. -/
def otherRole : Role → Role
  | .moo => .boo
  | .boo => .moo

/-- Model of `action: 'call' | 'answer' | 'reject' | 'end' | 'ice-candidate'`. -/
inductive SignalAction where
  | call
  | answer
  | reject
  | end_
  | iceCandidate
deriving DecidableEq

/-- Model of `interface CallData` (App.tsx lines 25-33); `from` is `from_` since `from`
is a Lean keyword; description and candidate payloads are opaque `Nat`s. -/
structure CallData where
  from_ : Option Role
  to_ : Option Role
  offer : Option Nat
  answer : Option Nat
  candidate : Option Nat
  action : SignalAction
  timestamp : Nat
deriving DecidableEq

/-- Model of `type CallState = 'idle' | 'calling' | 'ringing' | 'active' | 'ended'`. -/
inductive CallState where
  | idle
  | calling
  | ringing
  | active
  | ended
deriving DecidableEq

/-- One audio track of a captured media stream. -/
structure MediaTrack where
  enabled : Bool
  stopped : Bool
deriving DecidableEq

/-- A captured media stream: `getUserMedia({audio: ...})` yields only audio
tracks, so `getAudioTracks()` is the whole list. -/
structure MediaStream where
  tracks : List MediaTrack
deriving DecidableEq

/-- The state of one `RTCPeerConnection` that the handlers observe: the local
and remote descriptions and the remote candidates added so far. -/
structure PeerConnection where
  localDescription : Option Nat
  remoteDescription : Option Nat
  remoteCandidates : List Nat
deriving DecidableEq

/-- All `useState` values and `useRef` cells of `App` (App.tsx lines 36-47),
plus the interval-bookkeeping fields `liveTimers` / `nextTimerId` that model
which `setInterval` handles are currently running. -/
structure AppState where
  userRole : Option Role
  callState : CallState
  callDuration : Nat
  isConnected : Bool
  incomingCall : Option CallData
  isMuted : Bool
  peerConnectionRef : Option PeerConnection
  localStreamRef : Option MediaStream
  callTimerRef : Option Nat
  liveTimers : List Nat
  nextTimerId : Nat
deriving DecidableEq

/-- Payload construction of `sendSignal` (App.tsx lines 104-110); the timestamp
is diagnostic only and modelled as 0. -/
def mkSignal (f t : Option Role) (a : SignalAction)
    (offer answer candidate : Option Nat) : CallData :=
  { from_ := f, to_ := t, offer := offer, answer := answer,
    candidate := candidate, action := a, timestamp := 0 }

/-- The guard `callState === 'active' || callState === 'calling'` of
`endCall` (App.tsx line 248). -/
def shouldSendEnd : CallState → Bool
  | .active => true
  | .calling => true
  | _ => false

/-- Model of `endCall` (App.tsx lines 247-277) with the closure-captured
`userRole` and `callState` made explicit: the send guard at line 248 reads
the values the invoking closure captured at its creating render, while the
cleanup acts through the stable refs and state setters and therefore on the
current state.  Effects: optionally send `end`, close and drop the peer
connection, stop and drop the local stream (stopping then nulling the ref is
modelled as clearing the ref), clear the interval held in `callTimerRef`,
and reset every state field to its idle baseline. -/
def endCallWith (capturedRole : Option Role) (capturedState : CallState)
    (s : AppState) : AppState × List CallData :=
  ({ s with
      peerConnectionRef := none,
      localStreamRef := none,
      liveTimers := match s.callTimerRef with
        | some t => s.liveTimers.erase t
        | none => s.liveTimers,
      callTimerRef := none,
      callState := .idle,
      callDuration := 0,
      isConnected := false,
      incomingCall := none,
      isMuted := false },
   match capturedRole with
   | some r =>
       if shouldSendEnd capturedState then
         [mkSignal (some r) (some (otherRole r)) SignalAction.end_ none none none]
       else []
   | none => [])

/-- Model of `endCall` as invoked from the current render's closures — the
End and Cancel buttons — whose captured `userRole` and `callState` are the
current ones. -/
def endCall (s : AppState) : AppState × List CallData :=
  endCallWith s.userRole s.callState s

/-- Model of `handleIncomingSignal` (App.tsx lines 77-101) as invoked through
the broadcast subscription.  The subscription effect re-runs only when
`userRole` changes (deps `[userRole]`, App.tsx line 74), so the handler
closure it registers — and the `endCall` closure that handler invokes — were
created in the render where the role was chosen, when `callState` was
`idle`.  `endCall`'s send guard therefore sees the captured `idle` and never
sends on an inbound reject or end; its captured `userRole` is the current
one, since the subscription is torn down whenever the role changes.  The
other branches use only the stable setters and refs. -/
def handleIncomingSignal (callData : CallData) (s : AppState) :
    AppState × List CallData :=
  match callData.action with
  | .call => ({ s with incomingCall := some callData, callState := .ringing }, [])
  | .answer =>
      match s.peerConnectionRef, callData.answer with
      | some pc, some a =>
          ({ s with peerConnectionRef := some { pc with remoteDescription := some a } }, [])
      | _, _ => (s, [])
  | .reject => endCallWith s.userRole CallState.idle s
  | .end_ => endCallWith s.userRole CallState.idle s
  | .iceCandidate =>
      match s.peerConnectionRef, callData.candidate with
      | some pc, some c =>
          ({ s with peerConnectionRef := some {
                pc with remoteCandidates := pc.remoteCandidates ++ [c] } }, [])
      | _, _ => (s, [])

/-- The broadcast subscription handler (App.tsx lines 58-74): with no chosen
role there is no subscription; otherwise a delivered message is dispatched to
`handleIncomingSignal` only when `callData.to === userRole`. -/
def onBroadcast (callData : CallData) (s : AppState) : AppState × List CallData :=
  match s.userRole with
  | none => (s, [])
  | some r => if callData.to_ = some r then handleIncomingSignal callData s else (s, [])

/-- The body of `rejectCall` with the closure-captured `incomingCall` and
`userRole` made explicit, since `acceptCall`'s catch block invokes the
`rejectCall` closure of the same render (App.tsx lines 233-244). -/
def rejectCallWith (icd : Option CallData) (rr : Option Role) (s : AppState) :
    AppState × List CallData :=
  match icd, rr with
  | some ic, some r =>
      ({ s with incomingCall := none, callState := .idle },
       [mkSignal (some r) ic.from_ SignalAction.reject none none none])
  | _, _ => (s, [])

/-- Model of `rejectCall` as invoked from the UI, on the current state. -/
def rejectCall (s : AppState) : AppState × List CallData :=
  rejectCallWith s.incomingCall s.userRole s

/-- Outcome of the asynchronous part of `startCall`: the `getUserMedia`
result (`none` = rejection), whether offer creation succeeds, and the opaque
offer description produced. -/
structure OfferEnv where
  mediaResult : Option MediaStream
  offerOk : Bool
  offerDesc : Nat
deriving DecidableEq

/-- The continuation of `startCall` after its first `await` point
(App.tsx lines 171-194), with the closure-captured `userRole` as `r`.  On
media failure the catch block only sets the state to idle; on success the
stream and a fresh peer connection are stored in the refs before offer
creation, so an offer failure leaves both refs populated while the catch
block again only sets the state to idle. -/
def startCallResume (r : Role) (env : OfferEnv) (s : AppState) :
    AppState × List CallData :=
  match env.mediaResult with
  | none => ({ s with callState := .idle }, [])
  | some stream =>
      if env.offerOk then
        ({ s with
            localStreamRef := some stream,
            peerConnectionRef := some {
                localDescription := some env.offerDesc,
                remoteDescription := none, remoteCandidates := [] } },
         [mkSignal (some r) (some (otherRole r)) SignalAction.call
            (some env.offerDesc) none none])
      else
        ({ s with
            localStreamRef := some stream,
            peerConnectionRef := some {
                localDescription := none,
                remoteDescription := none, remoteCandidates := [] },
            callState := .idle }, [])

/-- The synchronous prefix of `startCall` (App.tsx lines 165-169): the guard
`if (!userRole) return` and `setCallState('calling')`. -/
def startCallBegin (s : AppState) : AppState :=
  match s.userRole with
  | none => s
  | some _ => { s with callState := .calling }

/-- Model of `startCall` run to completion with no interleaved events. -/
def startCall (env : OfferEnv) (s : AppState) : AppState × List CallData :=
  match s.userRole with
  | none => (s, [])
  | some r => startCallResume r env { s with callState := .calling }

/-- Outcome of the asynchronous part of `acceptCall`: the `getUserMedia`
result and whether the remote-description / answer steps succeed. -/
structure AnswerEnv where
  mediaResult : Option MediaStream
  answerOk : Bool
  answerDesc : Nat
deriving DecidableEq

/-- The continuation of `acceptCall` after its first `await` point
(App.tsx lines 202-229), with the closure-captured `incomingCall` as `ic`
and `userRole` as `r`.  Both catch paths invoke the same-render `rejectCall`
closure; on an answer failure the stream and peer-connection refs populated
just before stay populated. -/
def acceptCallResume (ic : CallData) (r : Role) (env : AnswerEnv) (s : AppState) :
    AppState × List CallData :=
  match env.mediaResult with
  | none => rejectCallWith (some ic) (some r) s
  | some stream =>
      match ic.offer with
      | some offer =>
          if env.answerOk then
            ({ s with
                localStreamRef := some stream,
                peerConnectionRef := some {
                    localDescription := some env.answerDesc,
                    remoteDescription := some offer, remoteCandidates := [] },
                incomingCall := none },
             [mkSignal (some r) ic.from_ SignalAction.answer none
                (some env.answerDesc) none])
          else
            rejectCallWith (some ic) (some r)
              { s with
                  localStreamRef := some stream,
                  peerConnectionRef := some {
                      localDescription := none,
                      remoteDescription := none, remoteCandidates := [] } }
      | none =>
          ({ s with
              localStreamRef := some stream,
              peerConnectionRef := some {
                  localDescription := none,
                  remoteDescription := none, remoteCandidates := [] },
              incomingCall := none }, [])

/-- Model of `acceptCall` run to completion with no interleaved events
(App.tsx lines 198-230), including the guard `if (!incomingCall || !userRole)`. -/
def acceptCall (env : AnswerEnv) (s : AppState) : AppState × List CallData :=
  match s.incomingCall, s.userRole with
  | some ic, some r => acceptCallResume ic r env s
  | _, _ => (s, [])

/-- Model of `toggleMute` (App.tsx lines 280-287): a no-op without a stream; otherwise
set every audio track's `enabled` to the old `isMuted` and flip the flag. -/
def toggleMute (s : AppState) : AppState :=
  match s.localStreamRef with
  | none => s
  | some stream =>
      { s with
          localStreamRef := some {
              tracks := stream.tracks.map fun t => { t with enabled := s.isMuted } },
          isMuted := !s.isMuted }

/-- Model of `startCallTimer` (App.tsx lines 290-295): reset the duration to zero and
install a fresh interval in `callTimerRef`; the previous interval, if any, is
not cleared and keeps running. -/
def startCallTimer (s : AppState) : AppState :=
  { s with
      callDuration := 0,
      callTimerRef := some s.nextTimerId,
      liveTimers := s.liveTimers ++ [s.nextTimerId],
      nextTimerId := s.nextTimerId + 1 }

/-- The values of `RTCPeerConnection.connectionState` the handler inspects. -/
inductive ConnectivityState where
  | connecting
  | connected
  | disconnected
  | failed
deriving DecidableEq

/-- The `onconnectionstatechange` handler body (App.tsx lines 133-141).  The
`endCall` closure it references was captured when `initializePeerConnection`
ran — in the idle render for the caller and the ringing render for the
callee — so `capturedRole` / `capturedState` are that render's values and
the disconnected/failed teardown never satisfies the send guard; the
connected branch uses only the stable setters and `startCallTimer`. -/
def onConnectionStateChange (capturedRole : Option Role) (capturedState : CallState)
    (cs : ConnectivityState) (s : AppState) : AppState × List CallData :=
  match cs with
  | .connected => (startCallTimer { s with isConnected := true, callState := .active }, [])
  | .disconnected => endCallWith capturedRole capturedState s
  | .failed => endCallWith capturedRole capturedState s
  | .connecting => (s, [])

/-- One second elapsing: every live interval fires its
`setCallDuration(prev => prev + 1)` callback once. -/
def timerTick (s : AppState) : AppState :=
  { s with callDuration := s.callDuration + s.liveTimers.length }

/-- Every event that can drive the state machine, including the resumption of
a suspended `startCall` / `acceptCall` with its closure-captured values. -/
inductive Event where
  | chooseRole (r : Option Role)
  | channelMessage (m : CallData)
  | placeCall (env : OfferEnv)
  | placeCallBegin
  | placeCallResolve (r : Role) (env : OfferEnv)
  | accept (env : AnswerEnv)
  | acceptResolve (ic : CallData) (r : Role) (env : AnswerEnv)
  | rejectLocal
  | endLocal
  | toggleMuteLocal
  | connectivity (capturedRole : Option Role) (capturedState : CallState)
      (cs : ConnectivityState)
  | tick

/-- The transition function of the whole component. -/
def step (e : Event) (s : AppState) : AppState × List CallData :=
  match e with
  | .chooseRole r => ({ s with userRole := r }, [])
  | .channelMessage m => onBroadcast m s
  | .placeCall env => startCall env s
  | .placeCallBegin => (startCallBegin s, [])
  | .placeCallResolve r env => startCallResume r env s
  | .accept env => acceptCall env s
  | .acceptResolve ic r env => acceptCallResume ic r env s
  | .rejectLocal => rejectCall s
  | .endLocal => endCall s
  | .toggleMuteLocal => (toggleMute s, [])
  | .connectivity cr cst cs => onConnectionStateChange cr cst cs s
  | .tick => (timerTick s, [])

/-- The initial render's state (App.tsx lines 36-47). -/
def initialState : AppState :=
  { userRole := none, callState := .idle, callDuration := 0, isConnected := false,
    incomingCall := none, isMuted := false, peerConnectionRef := none,
    localStreamRef := none, callTimerRef := none, liveTimers := [], nextTimerId := 0 }

/-- States reachable from the initial render by any sequence of events. -/
inductive Reachable : AppState → Prop where
  | init : Reachable initialState
  | next {s : AppState} (e : Event) : Reachable s → Reachable (step e s).1

/-! Concrete fixtures used by witnesses and counterexamples. -/

/-- A freshly captured, live, enabled audio track. -/
def trackLive : MediaTrack := { enabled := true, stopped := false }

/-- A one-track audio stream as returned by `getUserMedia`. -/
def streamOne : MediaStream := { tracks := [trackLive] }

/-- A freshly constructed peer connection. -/
def pcEmpty : PeerConnection :=
  { localDescription := none, remoteDescription := none, remoteCandidates := [] }

/-- Idle state right after choosing the role `moo`. -/
def sampleIdleMoo : AppState := { initialState with userRole := some Role.moo }

/-- A state in the middle of an established call as `moo`. -/
def sampleActive : AppState :=
  { userRole := some Role.moo, callState := .active, callDuration := 5,
    isConnected := true, incomingCall := none, isMuted := false,
    peerConnectionRef := some pcEmpty, localStreamRef := some streamOne,
    callTimerRef := some 0, liveTimers := [0], nextTimerId := 1 }

/-- An inbound call request from `boo` to `moo` carrying an offer. -/
def reqFromBoo : CallData :=
  mkSignal (some Role.boo) (some Role.moo) SignalAction.call (some 10) none none

/-- A ringing state at `moo`, holding the stored request from `boo`; no peer
connection exists yet (it is created only on accept). -/
def sampleRinging : AppState :=
  { userRole := some Role.moo, callState := .ringing, callDuration := 0,
    isConnected := false, incomingCall := some reqFromBoo, isMuted := false,
    peerConnectionRef := none, localStreamRef := none,
    callTimerRef := none, liveTimers := [], nextTimerId := 0 }

/-- A calling state at `moo` awaiting the transport to connect. -/
def sampleCalling : AppState :=
  { sampleIdleMoo with
      callState := .calling,
      peerConnectionRef := some pcEmpty,
      localStreamRef := some streamOne }

/-- An inbound `end` signal from `boo` to `moo`. -/
def endFromBoo : CallData :=
  mkSignal (some Role.boo) (some Role.moo) SignalAction.end_ none none none

/-- An inbound ice candidate from `boo` to `moo`. -/
def iceFromBoo : CallData :=
  mkSignal (some Role.boo) (some Role.moo) SignalAction.iceCandidate none none (some 7)

/-- A `startCall` environment where media and offer creation both succeed. -/
def envOfferOk : OfferEnv := { mediaResult := some streamOne, offerOk := true, offerDesc := 42 }

/-- A `startCall` environment where media succeeds but offer creation fails. -/
def envOfferFail : OfferEnv := { mediaResult := some streamOne, offerOk := false, offerDesc := 0 }

/-!  Theorems about the claims. -/

/-- Claim C1 — counterexample: in the `active` phase, an inbound call-request
addressed to the local identity sends nothing back (no call-rejected) and
moves the phase to `ringing`, contradicting the claimed auto-reject with
unchanged state. -/
theorem call_request_while_active_cex :
    (onBroadcast reqFromBoo sampleActive).2 = [] ∧
    (onBroadcast reqFromBoo sampleActive).1.callState = CallState.ringing ∧
    (onBroadcast reqFromBoo sampleActive).1.incomingCall = some reqFromBoo := by
  exact ⟨rfl, rfl, rfl⟩

/-- Claim C1 (amended): in every phase, an inbound call-request addressed to
the local identity overwrites the stored inbound request with the new one,
sets the phase to `ringing`, and sends nothing. -/
theorem call_request_always_rings (s : AppState) (r : Role) (m : CallData)
    (hrole : s.userRole = some r) (hto : m.to_ = some r)
    (hact : m.action = SignalAction.call) :
    onBroadcast m s = ({ s with incomingCall := some m, callState := .ringing }, []) := by
  obtain ⟨mf, mt, mo, ma, mc, mact, mts⟩ := m
  obtain ⟨f1, f2, f3, f4, f5, f6, f7, f8, f9, f10, f11⟩ := s
  simp only at hrole hto hact
  subst hrole hto hact
  cases r <;> rfl

/-- Claim C1 (amended) — witness at a concrete active state and request. -/
theorem call_request_always_rings_witness :
    onBroadcast reqFromBoo sampleActive =
      ({ sampleActive with incomingCall := some reqFromBoo, callState := .ringing }, []) :=
  call_request_always_rings sampleActive Role.moo reqFromBoo rfl rfl rfl

/-- Claim C2 — the code violates it: placing a call as `moo` where media
acquisition succeeds but offer creation fails returns the phase to `idle`
while the captured stream (with its live, enabled track) and the freshly
created peer connection both remain in the refs, neither stopped nor closed. -/
theorem start_call_offer_failure_leaks :
    (startCall envOfferFail sampleIdleMoo).1.callState = CallState.idle ∧
    (startCall envOfferFail sampleIdleMoo).1.localStreamRef = some streamOne ∧
    (startCall envOfferFail sampleIdleMoo).1.peerConnectionRef = some pcEmpty := by
  exact ⟨rfl, rfl, rfl⟩

/-- Claim C3: in the `active` phase an inbound call-ended tears down the
peer session and local stream and returns to `idle` without sending any
call-ended back — the subscription invokes the `endCall` closure of the
role-selection render, whose captured `callState` is `idle`, so the send
guard is false — whereas the local end action, invoked through the current
render's closure, does send a call-ended to the counterpart. -/
theorem inbound_end_no_echo (s : AppState) (r : Role) (m : CallData)
    (hrole : s.userRole = some r) (hstate : s.callState = CallState.active)
    (hto : m.to_ = some r) (hact : m.action = SignalAction.end_) :
    ((onBroadcast m s).1.callState = CallState.idle ∧
     (onBroadcast m s).1.peerConnectionRef = none ∧
     (onBroadcast m s).1.localStreamRef = none ∧
     (onBroadcast m s).2 = []) ∧
    (endCall s).2 =
      [mkSignal (some r) (some (otherRole r)) SignalAction.end_ none none none] := by
  obtain ⟨mf, mt, mo, ma, mc, mact, mts⟩ := m
  obtain ⟨f1, f2, f3, f4, f5, f6, f7, f8, f9, f10, f11⟩ := s
  simp only at hrole hto hact hstate
  subst hrole hto hact hstate
  cases r <;> exact ⟨⟨rfl, rfl, rfl, rfl⟩, rfl⟩

/-- Claim C3 — witness at a concrete active state: the inbound end from
`boo` tears down silently, while the local End button does notify. -/
theorem inbound_end_no_echo_witness :
    ((onBroadcast endFromBoo sampleActive).1.callState = CallState.idle ∧
     (onBroadcast endFromBoo sampleActive).1.peerConnectionRef = none ∧
     (onBroadcast endFromBoo sampleActive).1.localStreamRef = none ∧
     (onBroadcast endFromBoo sampleActive).2 = []) ∧
    (endCall sampleActive).2 =
      [mkSignal (some Role.moo) (some Role.boo) SignalAction.end_ none none none] :=
  inbound_end_no_echo sampleActive Role.moo endFromBoo rfl rfl rfl rfl

/-- Claim C4 — counterexample: an inbound ice-candidate addressed to the
local identity that arrives while `ringing`, before the local peer session
exists, leaves the state completely unchanged and sends nothing: the
candidate is recorded nowhere and can never be delivered. -/
theorem ice_while_ringing_dropped_cex :
    onBroadcast iceFromBoo sampleRinging = (sampleRinging, []) := by
  exact rfl

/-- Claim C4 (amended): an inbound ice-candidate addressed to the local
identity is appended to the peer session's candidates only when a session
exists on arrival; when no session exists the message is silently dropped. -/
theorem ice_candidate_forwarding (s : AppState) (r : Role) (m : CallData)
    (hrole : s.userRole = some r) (hto : m.to_ = some r)
    (hact : m.action = SignalAction.iceCandidate) :
    (∀ pc c, s.peerConnectionRef = some pc → m.candidate = some c →
      onBroadcast m s = ({ s with peerConnectionRef := some {
          pc with remoteCandidates := pc.remoteCandidates ++ [c] } }, [])) ∧
    (s.peerConnectionRef = none → onBroadcast m s = (s, [])) := by
  obtain ⟨mf, mt, mo, ma, mc, mact, mts⟩ := m
  obtain ⟨f1, f2, f3, f4, f5, f6, f7, f8, f9, f10, f11⟩ := s
  simp only at hrole hto hact
  subst hrole hto hact
  constructor
  · intro pc c hpc hc
    simp only at hpc hc
    subst hpc hc
    cases r <;> rfl
  · intro hpc
    simp only at hpc
    subst hpc
    cases r <;> rfl

/-- Claim C4 (amended) — witness: with a live session the concrete candidate
is appended. -/
theorem ice_candidate_forwarding_witness :
    onBroadcast iceFromBoo sampleActive = ({ sampleActive with peerConnectionRef := some {
        pcEmpty with remoteCandidates := [7] } }, []) :=
  (ice_candidate_forwarding sampleActive Role.moo iceFromBoo rfl rfl rfl).1 pcEmpty 7 rfl rfl

/-- Claim C5 — counterexample: `moo` places a call, cancels while
`getUserMedia` is outstanding (returning the phase to `idle`), and the
in-flight operation then resolves successfully: the continuation still sends
the call-request and installs a peer session, even though the phase is idle. -/
theorem stale_start_resume_cex :
    (startCallResume Role.moo envOfferOk (endCall (startCallBegin sampleIdleMoo)).1).1.callState
      = CallState.idle ∧
    (startCallResume Role.moo envOfferOk
        (endCall (startCallBegin sampleIdleMoo)).1).1.peerConnectionRef ≠ none ∧
    (startCallResume Role.moo envOfferOk (endCall (startCallBegin sampleIdleMoo)).1).2 =
      [mkSignal (some Role.moo) (some Role.boo) SignalAction.call (some 42) none none] := by
  refine ⟨rfl, ?_, rfl⟩
  decide

/-- Claim C5 (amended): when an in-flight `startCall` resolves successfully
after the state has returned to `idle`, its result is not discarded: the
continuation stores the stream and a fresh peer session and sends the
call-request; only the phase itself stays idle. -/
theorem stale_resume_still_sends (s : AppState) (r : Role) (env : OfferEnv)
    (stream : MediaStream) (hidle : s.callState = CallState.idle)
    (hm : env.mediaResult = some stream) (hok : env.offerOk = true) :
    (startCallResume r env s).1.callState = CallState.idle ∧
    (startCallResume r env s).1.localStreamRef = some stream ∧
    (startCallResume r env s).1.peerConnectionRef = some {
        localDescription := some env.offerDesc,
        remoteDescription := none, remoteCandidates := [] } ∧
    (startCallResume r env s).2 =
      [mkSignal (some r) (some (otherRole r)) SignalAction.call
        (some env.offerDesc) none none] := by
  obtain ⟨emr, eok, edesc⟩ := env
  obtain ⟨f1, f2, f3, f4, f5, f6, f7, f8, f9, f10, f11⟩ := s
  simp only at hm hok hidle
  subst hm hok hidle
  exact ⟨rfl, rfl, rfl, rfl⟩

/-- Claim C5 (amended) — witness on the concrete cancelled-call state. -/
theorem stale_resume_still_sends_witness :
    (startCallResume Role.moo envOfferOk (endCall (startCallBegin sampleIdleMoo)).1).1.callState
      = CallState.idle ∧
    (startCallResume Role.moo envOfferOk
        (endCall (startCallBegin sampleIdleMoo)).1).1.localStreamRef = some streamOne ∧
    (startCallResume Role.moo envOfferOk
        (endCall (startCallBegin sampleIdleMoo)).1).1.peerConnectionRef = some {
        localDescription := some envOfferOk.offerDesc,
        remoteDescription := none, remoteCandidates := [] } ∧
    (startCallResume Role.moo envOfferOk (endCall (startCallBegin sampleIdleMoo)).1).2 =
      [mkSignal (some Role.moo) (some (otherRole Role.moo)) SignalAction.call
        (some envOfferOk.offerDesc) none none] :=
  stale_resume_still_sends (endCall (startCallBegin sampleIdleMoo)).1 Role.moo envOfferOk
    streamOne rfl rfl rfl

/-- Claim C6 — the code violates it: from a `calling` state, a first
transport `connected` report starts interval 0; a second `connected` report
while already `active` starts a second interval 1 without clearing the
first, so two intervals run (the duration then advances by two per second),
and the subsequent `endCall` clears only the interval held in the ref,
leaving interval 0 running after the state is back to idle. -/
theorem double_connected_starts_second_timer :
    ((onConnectionStateChange (some Role.moo) CallState.idle ConnectivityState.connected
        (onConnectionStateChange (some Role.moo) CallState.idle ConnectivityState.connected sampleCalling).1).1.liveTimers
      = [0, 1]) ∧
    (timerTick (onConnectionStateChange (some Role.moo) CallState.idle ConnectivityState.connected
        (onConnectionStateChange (some Role.moo) CallState.idle ConnectivityState.connected sampleCalling).1).1).callDuration
      = 2 ∧
    ((endCall (onConnectionStateChange (some Role.moo) CallState.idle ConnectivityState.connected
        (onConnectionStateChange (some Role.moo) CallState.idle ConnectivityState.connected sampleCalling).1).1).1.liveTimers
      = [0]) := by
  exact ⟨rfl, rfl, rfl⟩

/-- Claim C7: a message whose recipient is not the local identity is dropped
with no state change and no outbound message, in every phase. -/
theorem misaddressed_message_ignored (s : AppState) (r : Role) (m : CallData)
    (hrole : s.userRole = some r) (hto : m.to_ ≠ some r) :
    onBroadcast m s = (s, []) := by
  obtain ⟨f1, f2, f3, f4, f5, f6, f7, f8, f9, f10, f11⟩ := s
  simp only at hrole
  subst hrole
  unfold onBroadcast
  simp only
  rw [if_neg hto]

/-- Claim C7 — witness: a call-request addressed to `boo` is ignored by `moo`. -/
theorem misaddressed_message_ignored_witness :
    onBroadcast (mkSignal (some Role.moo) (some Role.boo) SignalAction.call none none none)
      sampleIdleMoo = (sampleIdleMoo, []) :=
  misaddressed_message_ignored sampleIdleMoo Role.moo
    (mkSignal (some Role.moo) (some Role.boo) SignalAction.call none none none) rfl
    (by decide)

/-- Claim C8: once a first call-ended addressed to the local identity has
been processed (from any state), processing a second one changes nothing and
sends nothing. -/
theorem second_call_ended_noop (s : AppState) (r : Role) (m m2 : CallData)
    (hrole : s.userRole = some r)
    (hm : m.to_ = some r) (hma : m.action = SignalAction.end_)
    (hm2 : m2.to_ = some r) (hma2 : m2.action = SignalAction.end_) :
    onBroadcast m2 (onBroadcast m s).1 = ((onBroadcast m s).1, []) := by
  obtain ⟨mf, mt, mo, ma, mc, mact, mts⟩ := m
  obtain ⟨nf, nt, no_, na, nc, nact, nts⟩ := m2
  obtain ⟨f1, f2, f3, f4, f5, f6, f7, f8, f9, f10, f11⟩ := s
  simp only at hrole hm hma hm2 hma2
  subst hrole hm hma hm2 hma2
  cases r <;> rfl

/-- Claim C8 — witness: a second inbound end after a first one, at `moo`,
received in the middle of an active call. -/
theorem second_call_ended_noop_witness :
    onBroadcast endFromBoo (onBroadcast endFromBoo sampleActive).1 =
      ((onBroadcast endFromBoo sampleActive).1, []) :=
  second_call_ended_noop sampleActive Role.moo endFromBoo endFromBoo rfl rfl rfl rfl rfl

/-- Auxiliary for C10: remapping every track's `enabled` to `b` and then to
`!b` restores a track list whose tracks all had `enabled = !b`. -/
theorem map_restore (b : Bool) (l : List MediaTrack)
    (h : ∀ t ∈ l, t.enabled = !b) :
    ((l.map fun t => { t with enabled := b }).map fun t => { t with enabled := !b }) = l := by
  induction l with
  | nil => rfl
  | cons a as ih =>
      simp only [List.map_cons, List.cons.injEq]
      refine ⟨?_, ih fun t ht => h t (List.mem_cons_of_mem a ht)⟩
      have ha : a.enabled = !b := h a (List.mem_cons_self a as)
      cases a
      simp only at ha
      rw [ha]

/-- Claim C10: toggling mute with no captured stream is a no-op on the whole
state; with a stream whose tracks are enabled exactly when not muted (the
invariant every reachable stream satisfies, since fresh tracks are enabled
and the flag is reset whenever the stream is dropped), toggling twice
restores the whole state, in particular the tracks' `enabled` and the flag. -/
theorem toggleMute_spec (s : AppState) :
    (s.localStreamRef = none → toggleMute s = s) ∧
    (∀ stream, s.localStreamRef = some stream →
      (∀ t ∈ stream.tracks, t.enabled = !s.isMuted) →
      toggleMute (toggleMute s) = s) := by
  constructor
  · intro h
    unfold toggleMute
    rw [h]
  · intro stream hs htr
    obtain ⟨tr⟩ := stream
    obtain ⟨f1, f2, f3, f4, f5, f6, f7, f8, f9, f10, f11⟩ := s
    simp only at hs htr
    subst hs
    simp only [toggleMute, AppState.mk.injEq, Option.some.injEq, MediaStream.mk.injEq,
      Bool.not_not, and_true, true_and]
    exact map_restore f6 tr htr

/-- Claim C10 — witness: no-op while idle without a stream, and double-toggle
restoration on a concrete active state. -/
theorem toggleMute_spec_witness :
    toggleMute sampleIdleMoo = sampleIdleMoo ∧
    toggleMute (toggleMute sampleActive) = sampleActive :=
  ⟨(toggleMute_spec sampleIdleMoo).1 rfl,
   (toggleMute_spec sampleActive).2 streamOne rfl (by decide)⟩

/-- The phase after `rejectCallWith` is idle or unchanged. -/
theorem rejectCallWith_callState (icd : Option CallData) (rr : Option Role) (s : AppState) :
    (rejectCallWith icd rr s).1.callState = CallState.idle ∨
    (rejectCallWith icd rr s).1.callState = s.callState := by
  unfold rejectCallWith
  split
  · exact Or.inl rfl
  · exact Or.inr rfl

/-- The phase after `handleIncomingSignal` is ringing, idle, or unchanged. -/
theorem handleIncomingSignal_callState (m : CallData) (s : AppState) :
    (handleIncomingSignal m s).1.callState = CallState.ringing ∨
    (handleIncomingSignal m s).1.callState = CallState.idle ∨
    (handleIncomingSignal m s).1.callState = s.callState := by
  unfold handleIncomingSignal
  split
  · exact Or.inl rfl
  · split
    · exact Or.inr (Or.inr rfl)
    · exact Or.inr (Or.inr rfl)
  · exact Or.inr (Or.inl rfl)
  · exact Or.inr (Or.inl rfl)
  · split
    · exact Or.inr (Or.inr rfl)
    · exact Or.inr (Or.inr rfl)

/-- The phase after `onBroadcast` is ringing, idle, or unchanged. -/
theorem onBroadcast_callState (m : CallData) (s : AppState) :
    (onBroadcast m s).1.callState = CallState.ringing ∨
    (onBroadcast m s).1.callState = CallState.idle ∨
    (onBroadcast m s).1.callState = s.callState := by
  unfold onBroadcast
  split
  · exact Or.inr (Or.inr rfl)
  · split
    · exact handleIncomingSignal_callState m _
    · exact Or.inr (Or.inr rfl)

/-- The phase after the `startCall` continuation is idle or unchanged. -/
theorem startCallResume_callState (r : Role) (env : OfferEnv) (s : AppState) :
    (startCallResume r env s).1.callState = CallState.idle ∨
    (startCallResume r env s).1.callState = s.callState := by
  unfold startCallResume
  split
  · exact Or.inl rfl
  · split
    · exact Or.inr rfl
    · exact Or.inl rfl

/-- The phase after the `acceptCall` continuation is idle or unchanged. -/
theorem acceptCallResume_callState (ic : CallData) (r : Role) (env : AnswerEnv)
    (s : AppState) :
    (acceptCallResume ic r env s).1.callState = CallState.idle ∨
    (acceptCallResume ic r env s).1.callState = s.callState := by
  unfold acceptCallResume
  split
  · exact Or.inl rfl
  · split
    · split
      · exact Or.inr rfl
      · exact Or.inl rfl
    · exact Or.inr rfl

/-- No single event can produce the declared but unused phase `ended`. -/
theorem step_callState_not_ended (e : Event) (s : AppState)
    (h : s.callState ≠ CallState.ended) :
    (step e s).1.callState ≠ CallState.ended := by
  cases e with
  | chooseRole r => exact h
  | channelMessage m =>
      show (onBroadcast m s).1.callState ≠ CallState.ended
      rcases onBroadcast_callState m s with hc | hc | hc <;> rw [hc]
      · exact fun hx => CallState.noConfusion hx
      · exact fun hx => CallState.noConfusion hx
      · exact h
  | placeCall env =>
      show (startCall env s).1.callState ≠ CallState.ended
      unfold startCall
      split
      · exact h
      · rcases startCallResume_callState _ env { s with callState := .calling } with hc | hc <;>
          rw [hc] <;> exact fun hx => CallState.noConfusion hx
  | placeCallBegin =>
      show (startCallBegin s).callState ≠ CallState.ended
      unfold startCallBegin
      split
      · exact h
      · exact fun hx => CallState.noConfusion hx
  | placeCallResolve r env =>
      show (startCallResume r env s).1.callState ≠ CallState.ended
      rcases startCallResume_callState r env s with hc | hc <;> rw [hc]
      · exact fun hx => CallState.noConfusion hx
      · exact h
  | accept env =>
      show (acceptCall env s).1.callState ≠ CallState.ended
      unfold acceptCall
      split
      · rcases acceptCallResume_callState _ _ env s with hc | hc <;> rw [hc]
        · exact fun hx => CallState.noConfusion hx
        · exact h
      · exact h
  | acceptResolve ic r env =>
      show (acceptCallResume ic r env s).1.callState ≠ CallState.ended
      rcases acceptCallResume_callState ic r env s with hc | hc <;> rw [hc]
      · exact fun hx => CallState.noConfusion hx
      · exact h
  | rejectLocal =>
      show (rejectCallWith s.incomingCall s.userRole s).1.callState ≠ CallState.ended
      rcases rejectCallWith_callState s.incomingCall s.userRole s with hc | hc <;> rw [hc]
      · exact fun hx => CallState.noConfusion hx
      · exact h
  | endLocal => exact fun hx => CallState.noConfusion hx
  | toggleMuteLocal =>
      show (toggleMute s).callState ≠ CallState.ended
      unfold toggleMute
      split
      · exact h
      · exact h
  | connectivity cr cst cs =>
      cases cs with
      | connecting => exact h
      | connected => exact fun hx => CallState.noConfusion hx
      | disconnected => exact fun hx => CallState.noConfusion hx
      | failed => exact fun hx => CallState.noConfusion hx
  | tick => exact h

/-- Claim C9: the declared phase value `ended` is unreachable — every state
reachable from the initial render by any event sequence has a phase other
than `ended`, i.e. one of idle, calling, ringing, active. -/
theorem ended_unreachable (s : AppState) (h : Reachable s) :
    s.callState ≠ CallState.ended := by
  induction h with
  | init => exact fun hx => CallState.noConfusion hx
  | next e _ ih => exact step_callState_not_ended e _ ih

/-- Claim C9 — witness at the initial state. -/
theorem ended_unreachable_witness :
    Reachable initialState ∧ initialState.callState ≠ CallState.ended :=
  ⟨Reachable.init, ended_unreachable initialState Reachable.init⟩

end CallApp
